import Mathlib

set_option maxRecDepth 8000

/-!
Shallow embedding of the core logic of the mentoria repository
(topic resolution, content assembly, quiz synthesis, keyword engine,
company metadata store), together with proofs of the specified
properties.

JavaScript strings are modelled as `List Char` (`Str`).  JS
`toLowerCase` is modelled with core `Char.toLower` (the source data is
ASCII, where the two coincide), `String.prototype.includes` as list
containment (`<:+:`), and `split` as the corresponding list splitters.
-/

/-- JS strings are modelled as lists of characters. -/
abbrev Str := List Char

/-- Converts a Lean string literal to the `Str` model. -/
def js (s : String) : Str := s.toList

/-- JS `s.toLowerCase()` (ASCII range, as in the source data). -/
def lowerStr (s : Str) : Str := s.map Char.toLower

/-- JS `hay.includes(needle)`: substring containment. -/
def jsIncludes (hay needle : Str) : Bool := decide (needle <:+: hay)

/-- JS `s.startsWith(p)`. -/
def jsStartsWith (s p : Str) : Bool := decide (p <+: s)

/-- The character class matched by JS `\s` (ASCII range). -/
def isJsSpace (c : Char) : Bool :=
  c = ' ' || c = '\t' || c = '\n' || c = '\r' || c = '\x0b' || c = '\x0c'

/-- JS `s.trim()` (ASCII whitespace). -/
def jsTrim (s : Str) : Str :=
  ((s.dropWhile isJsSpace).reverse.dropWhile isJsSpace).reverse

/-- The character class matched by JS `\w`: `[A-Za-z0-9_]`. -/
def isWordChar (c : Char) : Bool := c.isAlphanum || c = '_'

/-! ## Company metadata model (src/services/company-metadata.ts) -/

/-- `CompanyPoliciesSchema`: the six named policy fields. -/
structure CompanyPolicies where
  leave : Str
  probation : Str
  termination : Str
  training : Str
  overtime : Str
  conduct : Str
deriving DecidableEq

/-- `CompanyMetadataEnhancedSchema`: one company metadata record. -/
structure CompanyMetadataEnhanced where
  companyId : Str
  companyName : Str
  contactEmail : Str
  policies : CompanyPolicies
  createdAt : Option Str
  lastUpdated : Option Str
deriving DecidableEq

/-! ## Quiz data model (src/lib/schemas.ts) -/

/-- `QuizModuleSchema`: one multiple-choice quiz item. -/
structure QuizModule where
  question : Str
  options : List Str
  correctAnswer : Str
  explanation : Str
  sourceRef : Option Str
deriving DecidableEq

/-- The `{title, summary, reference?}` record passed to the quiz generators. -/
structure ModuleInfo where
  title : Str
  summary : Str
  reference : Option Str
deriving DecidableEq

/-! ## Quiz generation service (src/services/quiz-generator.ts) -/

/-- `generateEmploymentQuiz`: employment-domain quiz templates. -/
def generateEmploymentQuiz (m : ModuleInfo) : Option QuizModule :=
  let content := m.title ++ js " " ++ m.summary
  if jsIncludes (lowerStr content) (js "termination") &&
     (jsIncludes content (js "1 month") || jsIncludes content (js "1-month")) then
    some { question := js "What is the standard notice period for employment termination?",
           options := [js "2 weeks", js "1 month", js "3 months", js "Immediate"],
           correctAnswer := js "1 month",
           explanation := js "Most employment terminations require 1 month notice or payment in lieu, as specified in the Employment Act and company policies.",
           sourceRef := m.reference }
  else if jsIncludes (lowerStr content) (js "hours") || jsIncludes (lowerStr content) (js "overtime") then
    some { question := js "What is the maximum normal working hours per day under Malaysian law?",
           options := [js "6 hours", js "8 hours", js "10 hours", js "12 hours"],
           correctAnswer := js "8 hours",
           explanation := js "The Employment Act 1955 specifies that normal working hours shall not exceed 8 hours per day or 48 hours per week.",
           sourceRef := m.reference }
  else if jsIncludes (lowerStr content) (js "leave") then
    some { question := js "What is the minimum annual leave entitlement for employees with less than 2 years service?",
           options := [js "6 days", js "8 days", js "12 days", js "14 days"],
           correctAnswer := js "8 days",
           explanation := js "Under the Employment Act 1955, employees with less than 2 years of service are entitled to a minimum of 8 days annual leave.",
           sourceRef := m.reference }
  else none

/-- `generateStrataQuiz`: strata-management quiz templates. -/
def generateStrataQuiz (m : ModuleInfo) : Option QuizModule :=
  let content := m.title ++ js " " ++ m.summary
  if jsIncludes (lowerStr content) (js "strata") || jsIncludes (lowerStr content) (js "management") then
    if jsIncludes (lowerStr content) (js "maintenance") then
      some { question := js "Who is responsible for maintaining common property in a strata development?",
             options := [js "Individual owners", js "Management Corporation", js "Developer", js "Local council"],
             correctAnswer := js "Management Corporation",
             explanation := js "The Strata Management Act 2013 assigns responsibility for maintaining common property to the Management Corporation (MC) or Joint Management Body (JMB).",
             sourceRef := m.reference }
    else if jsIncludes (lowerStr content) (js "charges") || jsIncludes (lowerStr content) (js "fees") then
      some { question := js "How are strata management charges typically apportioned?",
             options := [js "Equally among all units", js "Based on share units", js "By unit size only", js "At flat rate"],
             correctAnswer := js "Based on share units",
             explanation := js "Strata management charges are apportioned based on the share units allocated to each parcel as specified in the strata title.",
             sourceRef := m.reference }
    else none
  else none

/-- `generateDataProtectionQuiz`: PDPA quiz templates. -/
def generateDataProtectionQuiz (m : ModuleInfo) : Option QuizModule :=
  let content := m.title ++ js " " ++ m.summary
  if jsIncludes (lowerStr content) (js "data") || jsIncludes (lowerStr content) (js "pdpa") then
    if jsIncludes (lowerStr content) (js "consent") then
      some { question := js "Under the PDPA 2010, when can personal data be processed without consent?",
             options := [js "Never", js "For legal compliance", js "With supervisor approval", js "During business hours"],
             correctAnswer := js "For legal compliance",
             explanation := js "The PDPA allows processing without consent when necessary for compliance with legal obligations or for other specified lawful purposes.",
             sourceRef := m.reference }
    else if jsIncludes (lowerStr content) (js "notice") then
      some { question := js "What must data users inform data subjects about when collecting personal data?",
             options := [js "Only the collection purpose", js "Purpose and potential disclosures", js "Just storage duration", js "Only contact details"],
             correctAnswer := js "Purpose and potential disclosures",
             explanation := js "The PDPA requires data users to inform data subjects about the purpose of collection, potential disclosures, and their rights regarding the data.",
             sourceRef := m.reference }
    else none
  else none

/-- `generateCompanyPolicyQuiz`: company-policy quiz templates
(question and explanation texts embed the company name). -/
def generateCompanyPolicyQuiz (m : ModuleInfo) (companyName : Str) : Option QuizModule :=
  let content := m.title ++ js " " ++ m.summary
  if jsIncludes (lowerStr content) (js "desaria") || jsIncludes (lowerStr content) (js "company policy") then
    if jsIncludes content (js "1 month notice") then
      some { question := js "What is " ++ companyName ++ js "\x27s termination notice requirement?",
             options := [js "2 weeks notice", js "1 month notice or salary in lieu", js "3 months notice", js "Immediate termination"],
             correctAnswer := js "1 month notice or salary in lieu",
             explanation := companyName ++ js " requires 1 month notice or payment of salary in lieu for employment termination, as per their HR policy.",
             sourceRef := m.reference }
    else if jsIncludes (lowerStr content) (js "harassment") then
      some { question := js "What is " ++ companyName ++ js "\x27s policy on workplace harassment?",
             options := [js "Case-by-case basis", js "Zero tolerance", js "Warning system", js "Mediation first"],
             correctAnswer := js "Zero tolerance",
             explanation := companyName ++ js " maintains a zero tolerance policy for harassment and ensures compliance with PDPA and professional conduct standards.",
             sourceRef := m.reference }
    else if jsIncludes (lowerStr content) (js "7-day induction") then
      some { question := js "What is the duration of " ++ companyName ++ js "\x27s mandatory induction program?",
             options := [js "3 days", js "5 days", js "7 days", js "2 weeks"],
             correctAnswer := js "7 days",
             explanation := companyName ++ js " requires every new staff member to attend a comprehensive 7-day induction program.",
             sourceRef := m.reference }
    else none
  else none

/-- The words of the summary longer than 4 characters, as computed by
`generateGenericQuiz` (`summary.split(' ').filter(w => w.length > 4)`). -/
def genericWordsOf (m : ModuleInfo) : List Str :=
  (m.summary.splitOn ' ').filter (fun w => decide (4 < w.length))

/-- `generateGenericQuiz`: generic comprehension quiz fallback.  (The
source also computes a `keyTerm` value that it never uses; that dead
computation is omitted.) -/
def generateGenericQuiz (m : ModuleInfo) : Option QuizModule :=
  if (genericWordsOf m).length < 3 then none
  else
    some { question := js "What is the main focus of \x22" ++ m.title ++ js "\x22?",
           options := [m.summary.take 50 ++ js "...",
                       js "General compliance requirements",
                       js "Administrative procedures",
                       js "Training documentation"],
           correctAnswer := m.summary.take 50 ++ js "...",
           explanation := js "This module focuses on " ++ lowerStr m.title ++ js ", covering the key aspects described in the training content.",
           sourceRef := m.reference }

/-- `generateQuizForModule`: the main quiz entry point.  The optional
`legalContext` parameter of the source is never read by the function
body and is omitted here.  JS falsiness of `module.title` is emptiness. -/
def generateQuizForModule (m : ModuleInfo)
    (companyContext : Option CompanyMetadataEnhanced) : Option QuizModule :=
  if m.summary.length < 20 ∨ m.title = [] then none
  else match generateEmploymentQuiz m with
  | some q => some q
  | none => match generateStrataQuiz m with
    | some q => some q
    | none => match generateDataProtectionQuiz m with
      | some q => some q
      | none => match companyContext with
        | some ctx =>
          match generateCompanyPolicyQuiz m ctx.companyName with
          | some q => some q
          | none => generateGenericQuiz m
        | none => generateGenericQuiz m

/-- Result record of `validateQuiz`. -/
structure ValidationResult where
  isValid : Bool
  issues : List Str
deriving DecidableEq

/-- `validateQuiz`: quiz quality/safety validation.  The duplicate check
`new Set(options).size !== options.length` is the number of distinct
options, modelled with `List.dedup`. -/
def validateQuiz (quiz : QuizModule) : ValidationResult :=
  let issues :=
    (if quiz.question.length < 10 then [js "Question too short"] else []) ++
    (if jsIncludes quiz.question (js "?") = false then [js "Question missing question mark"] else []) ++
    (if quiz.options.length < 3 ∨ 4 < quiz.options.length then [js "Invalid number of options (must be 3-4)"] else []) ++
    (if quiz.correctAnswer ∈ quiz.options then [] else [js "Correct answer not found in options"]) ++
    (if quiz.options.dedup.length ≠ quiz.options.length then [js "Duplicate options found"] else []) ++
    (if quiz.explanation.length < 20 then [js "Explanation too short"] else [])
  ⟨issues.length == 0, issues⟩

/-- The generic filler list used by `generateDistractors` padding. -/
def genericOptions : List Str :=
  [js "Not specified", js "At management discretion", js "As per company policy",
   js "Subject to approval", js "Depends on circumstances", js "Not applicable",
   js "Under review"]

/-- The shape-matched fixed distractor triples of `generateDistractors`
(the chained `if`/`else if` branches before the padding loop); `[]`
when no shape matches. -/
def curatedDistractors (correctAnswer : Str) : List Str :=
  if jsIncludes (lowerStr correctAnswer) (js "month") then [js "2 weeks", js "3 months", js "6 months"]
  else if jsIncludes (lowerStr correctAnswer) (js "week") then [js "3 days", js "1 month", js "2 weeks"]
  else if jsIncludes (lowerStr correctAnswer) (js "day") then [js "1 week", js "2 weeks", js "1 month"]
  else if (lowerStr correctAnswer) = js "yes" ∨ (lowerStr correctAnswer) = js "true" then
    [js "No", js "Only in certain cases", js "Depends on circumstances"]
  else if (lowerStr correctAnswer) = js "no" ∨ (lowerStr correctAnswer) = js "false" then
    [js "Yes", js "Only with approval", js "Under specific conditions"]
  else if jsIncludes (lowerStr correctAnswer) (js "8 hours") then [js "6 hours", js "10 hours", js "12 hours"]
  else if jsIncludes (lowerStr correctAnswer) (js "48 hours") then [js "40 hours", js "44 hours", js "50 hours"]
  else if jsIncludes (lowerStr correctAnswer) (js "management corporation") then
    [js "Joint Management Body", js "Strata Committee", js "Building Manager"]
  else if jsIncludes (lowerStr correctAnswer) (js "joint management body") then
    [js "Management Corporation", js "Residents Committee", js "Property Manager"]
  else if jsIncludes (lowerStr correctAnswer) (js "consent") then [js "Authorization", js "Permission", js "Approval"]
  else if jsIncludes (lowerStr correctAnswer) (js "written notice") then
    [js "Verbal notification", js "Email notice", js "SMS notification"]
  else []

/-- The `while (distractors.length < 3)` padding loop of
`generateDistractors`.  Each random draw `Math.floor(Math.random()*7)`
is an element of `Fin 7` indexing `genericOptions`; `none` models a
draw sequence too short to ever fill three slots. -/
def padDistractors (correctAnswer : Str) : List (Fin 7) → List Str → Option (List Str)
  | [], distractors => if distractors.length < 3 then none else some distractors
  | d :: ds, distractors =>
    if distractors.length < 3 then
      let opt := genericOptions.getD d.val (js "Not specified")
      if opt ∈ distractors ∨ opt = correctAnswer then
        padDistractors correctAnswer ds distractors
      else
        padDistractors correctAnswer ds (distractors ++ [opt])
    else some distractors

/-- `generateDistractors`, parameterised by the outcomes of its random
draws.  The `context` parameter is kept from the source signature
(unused there as well). -/
def generateDistractors (correctAnswer context : Str) (draws : List (Fin 7)) :
    Option (List Str) :=
  let distractors := curatedDistractors correctAnswer
  if distractors.length < 3 then
    (padDistractors correctAnswer draws distractors).map (fun l => l.take 3)
  else
    some (distractors.take 3)

/-- Well-formedness bundle checked by claim C10. -/
abbrev quizWellFormed (q : QuizModule) : Prop :=
  (validateQuiz q).isValid = true ∧ q.options.length = 4 ∧ q.options.Nodup ∧
  q.correctAnswer ∈ q.options ∧ 10 ≤ q.question.length ∧
  (js "?") <:+: q.question ∧ 20 ≤ q.explanation.length

/-! ## Keyword and relevance engine (legal-ingestion module) -/

/-- `LAW_CATEGORIES`: the ordered keyword-to-category table
(`Object.entries` iterates in the literal insertion order). -/
def LAW_CATEGORIES : List (Str × Str) :=
  [(js "strata", js "Strata Management"),
   (js "property", js "Property Law"),
   (js "employment", js "Employment Law"),
   (js "company", js "Corporate Law"),
   (js "data", js "Data Protection"),
   (js "tax", js "Taxation"),
   (js "audit", js "Audit and Compliance"),
   (js "construction", js "Construction and Building"),
   (js "environment", js "Environmental Law"),
   (js "trade", js "Trade and Commerce")]

/-- `categorizeLegalContent`: returns the category of the first table
entry whose keyword occurs in the lowercased `title + ' ' + content`,
else "General Law". -/
def categorizeLegalContent (title content : Str) : Str :=
  match LAW_CATEGORIES.find?
      (fun p => jsIncludes (lowerStr (title ++ js " " ++ content)) p.1) with
  | some p => p.2
  | none => js "General Law"

/-- The stop-word list of `extractKeywords`. -/
def commonWords : List Str :=
  [js "the", js "and", js "or", js "of", js "to", js "in", js "for", js "with",
   js "by", js "from", js "shall", js "may", js "must", js "any", js "all",
   js "such", js "this", js "that", js "these", js "those", js "are", js "is",
   js "be", js "been", js "being", js "have", js "has", js "had"]

/-- JS `.replace(/[^\w\s]/g, ' ')`. -/
def replaceNonWord (s : Str) : Str :=
  s.map (fun c => if !(isWordChar c || isJsSpace c) then ' ' else c)

/-- JS `.split(/\s+/)`, modelled by splitting at every whitespace
character.  The empty chunks this produces at consecutive or leading
whitespace (which `/\s+/` would merge) are removed by the length filter
of `extractKeywords`, exactly as in the source. -/
def splitWs : Str → List Str
  | [] => [[]]
  | c :: cs =>
    if isJsSpace c then [] :: splitWs cs
    else match splitWs cs with
      | [] => [[c]]
      | t :: ts => (c :: t) :: ts

/-- The JS dedup idiom `filter((w, i, a) => a.indexOf(w) === i)`: keep
the first occurrence of each element. -/
def dedupFirst {α} [DecidableEq α] (seen : List α) : List α → List α
  | [] => []
  | x :: xs =>
    if x ∈ seen then dedupFirst seen xs else x :: dedupFirst (x :: seen) xs

/-- The token stream of `extractKeywords` after the length and
stop-word filter, before deduplication. -/
def filteredTokens (text : Str) : List Str :=
  (splitWs (replaceNonWord (lowerStr text))).filter
    (fun w => decide (3 < w.length) && decide (w ∉ commonWords))

/-- `extractKeywords`: lowercase, strip punctuation, split on
whitespace, drop stop words and short tokens, dedup keeping first
occurrences, truncate to 20. -/
def extractKeywords (text : Str) : List Str :=
  (dedupFirst [] (filteredTokens text)).take 20

/-- Index of the first occurrence (JS `indexOf`; length of the list
when absent). -/
def firstIdx {α} [DecidableEq α] (x : α) : List α → Nat
  | [] => 0
  | y :: ys => if y = x then 0 else firstIdx x ys + 1

/-! ## Company metadata store (src/services/company-metadata.ts) -/

/-- The argument of `saveCompanyMetadata`
(`Omit<CompanyMetadataEnhanced, 'createdAt' | 'lastUpdated'>`). -/
structure CompanyMetadataInput where
  companyId : Str
  companyName : Str
  contactEmail : Str
  policies : CompanyPolicies
deriving DecidableEq

/-- JS `Array.prototype.findIndex`, as an `Option Nat`. -/
def findIndex {α} (p : α → Bool) : List α → Option Nat
  | [] => none
  | x :: xs => if p x then some 0 else (findIndex p xs).map (fun n => n + 1)

/-- `saveCompanyMetadata` as a pure transformation of the store list:
upsert keyed on `companyId`.  An existing record is replaced in place,
keeping its `createdAt` and setting `lastUpdated := now`; otherwise a
fresh record with `createdAt = lastUpdated = now` is appended. -/
def saveCompanyMetadata (store : List CompanyMetadataEnhanced)
    (data : CompanyMetadataInput) (now : Str) : List CompanyMetadataEnhanced :=
  match findIndex (fun c => decide (c.companyId = data.companyId)) store with
  | some i =>
    store.set i
      { companyId := data.companyId, companyName := data.companyName,
        contactEmail := data.contactEmail, policies := data.policies,
        createdAt :=
          match store.get? i with
          | some old => old.createdAt
          | none => some now,
        lastUpdated := some now }
  | none =>
    store ++ [{ companyId := data.companyId, companyName := data.companyName,
                contactEmail := data.contactEmail, policies := data.policies,
                createdAt := some now, lastUpdated := some now }]

/-- Desaria Group policy fixture (from `createDesariaGroupMetadata`). -/
def c9pol : CompanyPolicies :=
  { leave := js "14 days annual leave, no carry-forward",
    probation := js "3 months with monthly review",
    termination := js "1 month notice or salary in lieu",
    training := js "Every new staff must attend 7-day induction",
    overtime := js "Paid hourly, only after 48 hours/week",
    conduct := js "Follow PDPA, zero tolerance for harassment" }

/-- An existing store record used by the C9 witness. -/
def c9rec : CompanyMetadataEnhanced :=
  { companyId := js "desaria_group", companyName := js "Desaria Group",
    contactEmail := js "onboarding@witventure.com", policies := c9pol,
    createdAt := some (js "2024-01-01"), lastUpdated := some (js "2024-01-01") }

/-- The upsert payload used by the C9 witness. -/
def c9data : CompanyMetadataInput :=
  { companyId := js "desaria_group", companyName := js "Desaria Group",
    contactEmail := js "onboarding@witventure.com", policies := c9pol }

/-! ## Legal library and flow model
(src/services/firebase.ts, src/ai/flows/enhanced-lesson-plan.ts) -/

/-- `LegalDocumentSchema` (legal-ingestion module). -/
structure LegalDocument where
  id : Option Str
  category : Str
  lawTitle : Str
  excerpt : Str
  sourceUrl : Str
  fullText : Str
  keywords : List Str
  relevanceTags : List Str
  onboardingRelevance : Bool
  useInClarification : Bool
  synonyms : List Str
  createdAt : Option Str
  lastUpdated : Option Str
deriving DecidableEq

/-- `searchLegalLibrary`: keeps a document when any whitespace-split
term of the lowercased query occurs in the lowercased concatenation of
title, category, keywords and synonyms.  JS `split(' ')` splits at each
single space (`List.splitOn`). -/
def searchLegalLibrary (library : List LegalDocument) (query : Str) :
    List LegalDocument :=
  library.filter (fun doc =>
    ((lowerStr query).splitOn ' ').any (fun term =>
      jsIncludes
        (lowerStr (doc.lawTitle ++ js " " ++ doc.category ++ js " " ++
          List.intercalate (js " ") doc.keywords ++ js " " ++
          List.intercalate (js " ") doc.synonyms))
        term))

/-- `getHRRelevantLegalDocs`: documents flagged `onboardingRelevance`. -/
def getHRRelevantLegalDocs (library : List LegalDocument) : List LegalDocument :=
  library.filter (fun doc => doc.onboardingRelevance)

/-- The fallback filter of `resolveTrainingTopic`: HR-relevant documents
one of whose keywords (lowercased) occurs in the lowercased topic
(`originalTopic.toLowerCase().includes(keyword.toLowerCase())`). -/
def fallbackMatches (library : List LegalDocument) (originalTopic : Str) :
    List LegalDocument :=
  (getHRRelevantLegalDocs library).filter (fun doc =>
    doc.keywords.any (fun keyword =>
      jsIncludes (lowerStr originalTopic) (lowerStr keyword)))

/-- Result record of `resolveTrainingTopic`. -/
structure TopicResolution where
  clarifiedTopic : Str
  suggestedLaws : List LegalDocument
  confidence : ℚ
deriving DecidableEq

/-- `resolveTrainingTopic`: direct corpus search, HR-relevant keyword
fallback, or give-up with confidence 0.  The JS falsy check
`topMatch.category || originalTopic` is the empty-string test. -/
def resolveTrainingTopic (library : List LegalDocument) (originalTopic : Str) :
    TopicResolution :=
  let relevantDocs := searchLegalLibrary library originalTopic
  if h : relevantDocs = [] then
    let generalMatch := fallbackMatches library originalTopic
    if hg : generalMatch = [] then
      { clarifiedTopic := originalTopic, suggestedLaws := [], confidence := 0 }
    else
      { clarifiedTopic := (generalMatch.head hg).category,
        suggestedLaws := generalMatch.take 3, confidence := 1/2 }
  else
    let topMatch := relevantDocs.head h
    { clarifiedTopic :=
        if topMatch.category = [] then originalTopic else topMatch.category,
      suggestedLaws := relevantDocs.take 3,
      confidence := if 2 ≤ relevantDocs.length then 9/10 else 7/10 }

/-- A legal reference `{lawTitle, sourceUrl, relevanceScore}`. -/
structure LegalReference where
  lawTitle : Str
  sourceUrl : Str
  relevanceScore : ℚ
deriving DecidableEq

/-- The per-document block of the legal prompt text built by
`fetchLegalContent`. -/
def legalDocBlock (doc : LegalDocument) : Str :=
  js "\n**" ++ doc.lawTitle ++ js "**\nCategory: " ++ doc.category ++
  js "\nKey Provisions: " ++ doc.excerpt ++ js "\nKeywords: " ++
  List.intercalate (js ", ") (doc.keywords.take 5) ++
  js "\nSource: " ++ doc.sourceUrl ++ js "\n"

/-- Result record of `fetchLegalContent`. -/
structure LegalContent where
  laws : List LegalDocument
  legalText : Str
  references : List LegalReference

/-- `fetchLegalContent`: prioritise onboarding / clarification
documents, else first three raw matches; format prompt text and build
reference records. -/
def fetchLegalContent (library : List LegalDocument) (trainingFocus : Str) :
    LegalContent :=
  let relevantDocs := searchLegalLibrary library trainingFocus
  let prioritizedDocs := relevantDocs.filter
    (fun doc => doc.onboardingRelevance || doc.useInClarification)
  let finalDocs := if 0 < prioritizedDocs.length then prioritizedDocs
    else relevantDocs.take 3
  { laws := finalDocs,
    legalText := List.intercalate (js "\n") (finalDocs.map legalDocBlock),
    references := finalDocs.map (fun doc =>
      { lawTitle := doc.lawTitle, sourceUrl := doc.sourceUrl,
        relevanceScore := if doc.onboardingRelevance then 1 else 7/10 }) }

/-- `getCompanyMetadata`: first record with the given companyId. -/
def getCompanyMetadata (store : List CompanyMetadataEnhanced)
    (companyId : Str) : Option CompanyMetadataEnhanced :=
  store.find? (fun c => decide (c.companyId = companyId))

/-- One policy callout appended by `contextualizeWithCompanyPolicy`. -/
def policyCallout (companyName policyText : Str) : Str :=
  js "\n\n**" ++ companyName ++ js " Policy:** " ++ policyText

/-- `contextualizeWithCompanyPolicy`: append matching policy callouts
to the base content; unknown company returns the base content. -/
def contextualizeWithCompanyPolicy (store : List CompanyMetadataEnhanced)
    (companyId trainingTopic baseContent : Str) : Str :=
  match getCompanyMetadata store companyId with
  | none => baseContent
  | some company =>
    let t := lowerStr trainingTopic
    let c1 := baseContent ++
      (if jsIncludes t (js "leave") then
        policyCallout company.companyName company.policies.leave else [])
    let c2 := c1 ++
      (if jsIncludes t (js "probation") then
        policyCallout company.companyName company.policies.probation else [])
    let c3 := c2 ++
      (if jsIncludes t (js "termination") then
        policyCallout company.companyName company.policies.termination else [])
    let c4 := c3 ++
      (if jsIncludes t (js "training") || jsIncludes t (js "induction") then
        policyCallout company.companyName company.policies.training else [])
    let c5 := c4 ++
      (if jsIncludes t (js "overtime") then
        policyCallout company.companyName company.policies.overtime else [])
    c5 ++
      (if jsIncludes t (js "conduct") || jsIncludes t (js "harassment") then
        policyCallout company.companyName company.policies.conduct else [])

/-- A `{policyType, policyText}` reference. -/
structure PolicyReference where
  policyType : Str
  policyText : Str
deriving DecidableEq

/-- Result record of `fetchCompanyContext`. -/
structure CompanyContext where
  companyName : Str
  policies : List PolicyReference
  contextualizedContent : Str

/-- The topic-matched subset of the six policy fields selected by
`fetchCompanyContext`. -/
def matchedPolicies (companyData : CompanyMetadataEnhanced)
    (trainingFocus : Str) : List PolicyReference :=
  let focusLower := lowerStr trainingFocus
  (if jsIncludes focusLower (js "leave") || jsIncludes focusLower (js "vacation") then
    [⟨js "leave", companyData.policies.leave⟩] else []) ++
  (if jsIncludes focusLower (js "probation") || jsIncludes focusLower (js "trial") then
    [⟨js "probation", companyData.policies.probation⟩] else []) ++
  (if jsIncludes focusLower (js "termination") || jsIncludes focusLower (js "dismissal") then
    [⟨js "termination", companyData.policies.termination⟩] else []) ++
  (if jsIncludes focusLower (js "training") || jsIncludes focusLower (js "induction") then
    [⟨js "training", companyData.policies.training⟩] else []) ++
  (if jsIncludes focusLower (js "overtime") || jsIncludes focusLower (js "hours") then
    [⟨js "overtime", companyData.policies.overtime⟩] else []) ++
  (if jsIncludes focusLower (js "conduct") || jsIncludes focusLower (js "harassment") ||
      jsIncludes focusLower (js "ethics") then
    [⟨js "conduct", companyData.policies.conduct⟩] else [])

/-- All six policy fields, in `Object.entries` insertion order, used by
the comprehensive fallback of `fetchCompanyContext`. -/
def allPolicies (companyData : CompanyMetadataEnhanced) : List PolicyReference :=
  [⟨js "leave", companyData.policies.leave⟩,
   ⟨js "probation", companyData.policies.probation⟩,
   ⟨js "termination", companyData.policies.termination⟩,
   ⟨js "training", companyData.policies.training⟩,
   ⟨js "overtime", companyData.policies.overtime⟩,
   ⟨js "conduct", companyData.policies.conduct⟩]

/-- `fetchCompanyContext`: company name, matched (or all) policies, and
the contextualized content built from the base string
`"Training focus: " + trainingFocus`. -/
def fetchCompanyContext (store : List CompanyMetadataEnhanced)
    (companyId trainingFocus : Str) : CompanyContext :=
  match getCompanyMetadata store companyId with
  | none =>
    { companyName := js "Unknown Company", policies := [],
      contextualizedContent := [] }
  | some companyData =>
    { companyName := companyData.companyName,
      policies :=
        if matchedPolicies companyData trainingFocus = [] then
          allPolicies companyData
        else matchedPolicies companyData trainingFocus,
      contextualizedContent :=
        contextualizeWithCompanyPolicy store companyId trainingFocus
          (js "Training focus: " ++ trainingFocus) }

/-- `SopLinkSchema` (src/lib/schemas.ts). -/
structure SopLink where
  title : Str
  url : Str
  linkedLaws : List Str
deriving DecidableEq

/-- `TrainingModuleSchema` (src/lib/schemas.ts). -/
structure TrainingModule where
  title : Str
  summary : Str
  reference : Option Str
  quiz : Option QuizModule
  completed : Bool
deriving DecidableEq

/-- One entry of `DailyPlanSchema.modules`
(`z.union([z.string(), TrainingModuleSchema])`). -/
inductive ModuleEntry
  | plain (s : Str)
  | structured (m : TrainingModule)
deriving DecidableEq

/-- `DailyPlanSchema` (src/lib/schemas.ts). -/
structure DailyPlan where
  day : Str
  title : Str
  modules : List ModuleEntry
  sops : List SopLink
deriving DecidableEq

/-- The contribution of line `j` to a module summary in
`enhanceLessonPlanWithQuizzes` (lines that are non-empty and not
bullets, headers or quotes are appended with a trailing space). -/
def summaryContribution (lines : List Str) (j : Nat) : Str :=
  if j < lines.length then
    let nextLine := jsTrim (lines.getD j [])
    if nextLine ≠ [] ∧ jsStartsWith nextLine (js "- ") = false ∧
        jsStartsWith nextLine (js "#") = false ∧
        jsStartsWith nextLine (js ">") = false then
      nextLine ++ js " "
    else []
  else []

/-- The summary scan of `enhanceLessonPlanWithQuizzes`: the loop
`while (j < lines.length && j < i + 3)` starting at `j = i + 1` visits
exactly lines `i+1` and `i+2`. -/
def moduleSummaryAt (lines : List Str) (i : Nat) : Str :=
  summaryContribution lines (i + 1) ++ summaryContribution lines (i + 2)

/-- The reference-source selection of `enhanceLessonPlanWithQuizzes`.
JS falsiness of `companyContext.companyId` is the empty-string test. -/
def moduleReference (legalContent : List LegalReference)
    (companyContext : Option CompanyMetadataEnhanced)
    (companyName moduleTitle : Str) : Str :=
  let r1 := match legalContent with
    | [] => js "general_training"
    | l :: _ => l.sourceUrl
  match companyContext with
  | some ctx =>
    if jsIncludes (lowerStr moduleTitle) (js "policy") ||
        jsIncludes (lowerStr moduleTitle) (lowerStr companyName) then
      js "companyMetadata/" ++
        (if ctx.companyId = [] then js "company" else ctx.companyId)
    else r1
  | none => r1

/-- One rendered option line of an inlined quiz
(`String.fromCharCode(65 + idx)` is the letter label). -/
def quizOptionLine (quiz : QuizModule) (idx : Nat) (opt : Str) : Str :=
  js "  " ++ [Char.ofNat (65 + idx)] ++ js ". " ++ opt ++ js " " ++
  (if opt = quiz.correctAnswer then js "✅" else js "  ")

/-- The block of lines inserted after a module line for a valid quiz. -/
def quizLines (quiz : QuizModule) : List Str :=
  [[], js "  **📝 Quick Knowledge Check:**",
   js "  *" ++ quiz.question ++ js "*", js "  \x60\x60\x60"] ++
  (quiz.options.enum.map (fun p => quizOptionLine quiz p.1 p.2)) ++
  [js "  \x60\x60\x60", js "  💡 **Explanation:** " ++ quiz.explanation, []]

/-- The per-line step of `enhanceLessonPlanWithQuizzes`: emit the line;
for bullet lines build the module record, generate a quiz, and inline
it when it validates. -/
def enhanceLine (legalContent : List LegalReference)
    (companyContext : Option CompanyMetadataEnhanced) (companyName : Str)
    (lines : List Str) (i : Nat) : List Str × List QuizModule :=
  let rawLine := lines.getD i []
  let line := jsTrim rawLine
  if jsStartsWith line (js "- ") then
    let moduleTitle := jsTrim (line.drop 2)
    let ms := moduleSummaryAt lines i
    let moduleSummary :=
      if ms.length < 20 then
        js "Training module covering " ++ lowerStr moduleTitle ++
          js " concepts and practical applications."
      else ms
    let minfo : ModuleInfo :=
      { title := moduleTitle, summary := jsTrim moduleSummary,
        reference := some (moduleReference legalContent companyContext
          companyName moduleTitle) }
    match generateQuizForModule minfo companyContext with
    | some quiz =>
      if (validateQuiz quiz).isValid then (rawLine :: quizLines quiz, [quiz])
      else ([rawLine], [])
    | none => ([rawLine], [])
  else ([rawLine], [])

/-- `enhanceLessonPlanWithQuizzes`: scan the plan line by line (each
iteration is independent), collecting enhanced lines and the valid quiz
modules. -/
def enhanceLessonPlanWithQuizzes (lessonPlan : Str)
    (legalContent : List LegalReference)
    (companyContext : Option CompanyMetadataEnhanced) (companyName : Str) :
    Str × List QuizModule :=
  let lines := lessonPlan.splitOn '\n'
  let results := (List.range lines.length).map
    (enhanceLine legalContent companyContext companyName lines)
  (List.intercalate (js "\n") (results.map Prod.fst).flatten,
   (results.map Prod.snd).flatten)

/-- The input record of the `enhancedLessonPlanPrompt` call. -/
structure PromptInput where
  trainingFocus : Str
  clarifiedTopic : Str
  seniorityLevel : Str
  learningScope : Str
  duration : Nat
  legalContent : Str
  companyContext : Str
  companyName : Str

/-- The record passed to `saveOnboardingTrack` by the flow. -/
structure OnboardingTrack where
  trainingFocus : Str
  clarifiedTopic : Str
  duration : Nat
  seniorityLevel : Str
  learningScope : Str
  companyId : Str
  createdBy : Str
  plan : List DailyPlan
  status : Str
  brandingCompanyName : Str

/-- `EnhancedGenerateLessonPlanOutputSchema`. -/
structure EnhancedOutput where
  lessonPlan : Str
  trackId : Str
  parsedPlan : List DailyPlan
  legalReferences : List LegalReference
  companyPolicies : List PolicyReference
  clarifiedTopic : Str

/-- One `UNRESOLVED_TOPICS` record `{topic, timestamp, reason}`. -/
structure UnresolvedTopic where
  topic : Str
  timestamp : Str
  reason : Str
deriving DecidableEq

/-- The flow environment: the two stores and the outside collaborators
(LLM prompt, track persistence, clock). -/
structure FlowEnv where
  library : List LegalDocument
  companyStore : List CompanyMetadataEnhanced
  promptFn : PromptInput → Option Str
  saveTrack : OnboardingTrack → Str
  now : Str

/-- `EnhancedGenerateLessonPlanInputSchema`. -/
structure FlowInput where
  trainingFocus : Str
  seniorityLevel : Str
  learningScope : Str
  duration : Nat
  companyId : Option Str
  userId : Str
  planParser : Str → List DailyPlan

/-- JS truthiness of the optional `companyId` (`undefined` and the
empty string are both falsy). -/
def truthyId : Option Str → Option Str
  | none => none
  | some c => if c = [] then none else some c

/-- The reason logged in step 1 for an unresolved topic. -/
def unresolvedReasonNoMatch : Str :=
  js "No matching legal content or company policies found"

/-- The reason logged by the step-2 safety check. -/
def unresolvedReasonNeither : Str :=
  js "Neither legal content nor company policies available"

/-- The insufficient-content error message of the safety check. -/
def insufficientMsg (trainingFocus : Str) : Str :=
  js "Cannot generate training plan: No legal content or company policies found for \x22" ++
  trainingFocus ++ js "\x22"

/-- The error thrown when the prompt returns no lesson plan text. -/
def promptFailureMsg : Str := js "Failed to generate enhanced lesson plan content"

/-- The company context assembled by the flow: absent (or empty)
companyId keeps the defaults, otherwise `fetchCompanyContext`. -/
def companyContextOf (env : FlowEnv) (input : FlowInput)
    (clarifiedTopic : Str) : CompanyContext :=
  match truthyId input.companyId with
  | none =>
    { companyName := js "Your Company", policies := [],
      contextualizedContent := [] }
  | some cid => fetchCompanyContext env.companyStore cid clarifiedTopic

/-- The unresolved-topics log after step 1 of the flow. -/
def flowLog1 (env : FlowEnv) (input : FlowInput)
    (log : List UnresolvedTopic) : List UnresolvedTopic :=
  if (resolveTrainingTopic env.library input.trainingFocus).confidence = 0 then
    log ++ [{ topic := input.trainingFocus, timestamp := env.now,
              reason := unresolvedReasonNoMatch }]
  else log

/-- `generateEnhancedLessonPlan`, as a pure function of the environment,
input and unresolved-topics log.  Returns the flow result (or thrown
error) together with the updated log. -/
def generateEnhancedLessonPlan (env : FlowEnv) (input : FlowInput)
    (log : List UnresolvedTopic) :
    Except Str EnhancedOutput × List UnresolvedTopic :=
  let topicResolution := resolveTrainingTopic env.library input.trainingFocus
  let log1 := flowLog1 env input log
  let lc := fetchLegalContent env.library topicResolution.clarifiedTopic
  let cctx := companyContextOf env input topicResolution.clarifiedTopic
  if lc.legalText = [] ∧ cctx.contextualizedContent = [] then
    (Except.error (insufficientMsg input.trainingFocus),
     log1 ++ [{ topic := input.trainingFocus, timestamp := env.now,
                reason := unresolvedReasonNeither }])
  else
    let promptInput : PromptInput :=
      { trainingFocus := input.trainingFocus,
        clarifiedTopic := topicResolution.clarifiedTopic,
        seniorityLevel := input.seniorityLevel,
        learningScope := input.learningScope,
        duration := input.duration,
        legalContent :=
          if lc.legalText = [] then
            js "No specific legal content available for this topic."
          else lc.legalText,
        companyContext :=
          if cctx.contextualizedContent = [] then
            js "No company-specific policies configured."
          else cctx.contextualizedContent,
        companyName := cctx.companyName }
    match env.promptFn promptInput with
    | none => (Except.error promptFailureMsg, log1)
    | some lessonPlan =>
      if lessonPlan = [] then (Except.error promptFailureMsg, log1)
      else
        let companyMeta :=
          match truthyId input.companyId with
          | none => none
          | some cid => getCompanyMetadata env.companyStore cid
        let ep := enhanceLessonPlanWithQuizzes lessonPlan lc.references
          companyMeta cctx.companyName
        let parsedPlan := input.planParser ep.1
        let trackId := env.saveTrack
          { trainingFocus := input.trainingFocus,
            clarifiedTopic := topicResolution.clarifiedTopic,
            duration := input.duration,
            seniorityLevel := input.seniorityLevel,
            learningScope := input.learningScope,
            companyId := (truthyId input.companyId).getD (js "default"),
            createdBy := input.userId,
            plan := parsedPlan,
            status := js "draft",
            brandingCompanyName := cctx.companyName }
        (Except.ok { lessonPlan := ep.1, trackId := trackId,
                     parsedPlan := parsedPlan,
                     legalReferences := lc.references,
                     companyPolicies := cctx.policies,
                     clarifiedTopic := topicResolution.clarifiedTopic },
         log1)

/-- Environment for the C1 witness: empty corpus, no company records,
prompt always succeeds. -/
def c1env : FlowEnv :=
  { library := [], companyStore := [],
    promptFn := fun _ => some (js "plan"),
    saveTrack := fun _ => js "track_1",
    now := js "2024-01-01T00:00:00.000Z" }

/-- Input for the C1 witness. -/
def c1input : FlowInput :=
  { trainingFocus := js "xyz", seniorityLevel := js "Entry",
    learningScope := js "Basic Overview", duration := 2,
    companyId := none, userId := js "u", planParser := fun _ => [] }

/-- Corpus document fixture for the C2 witness (matches "strata"). -/
def c2doc1 : LegalDocument :=
  { id := none, category := js "Strata Management",
    lawTitle := js "Strata Management Act 2013", excerpt := js "",
    sourceUrl := js "https://example.com/sma", fullText := js "",
    keywords := [js "strata"], relevanceTags := [],
    onboardingRelevance := true, useInClarification := true,
    synonyms := [], createdAt := none, lastUpdated := none }

/-- Second corpus document fixture for the C2 witness. -/
def c2doc2 : LegalDocument :=
  { id := none, category := js "Strata Management",
    lawTitle := js "Strata Titles Act 1985", excerpt := js "",
    sourceUrl := js "https://example.com/sta", fullText := js "",
    keywords := [js "strata"], relevanceTags := [],
    onboardingRelevance := true, useInClarification := true,
    synonyms := [], createdAt := none, lastUpdated := none }

/-- Environment for the C2 witness log case. -/
def c2env : FlowEnv :=
  { library := [], companyStore := [],
    promptFn := fun _ => some (js "plan"),
    saveTrack := fun _ => js "track_1", now := js "t" }

/-- Input for the C2 witness log case. -/
def c2input : FlowInput :=
  { trainingFocus := js "zzqq", seniorityLevel := js "Entry",
    learningScope := js "Basic Overview", duration := 2,
    companyId := none, userId := js "u", planParser := fun _ => [] }

/-- Document fixture for the C3 counterexample. -/
def c3doc : LegalDocument :=
  { id := none, category := js "Data Protection",
    lawTitle := js "Personal Data Protection Act 2010", excerpt := js "",
    sourceUrl := js "https://example.com/pdpa", fullText := js "",
    keywords := [js "pdpa"], relevanceTags := [],
    onboardingRelevance := true, useInClarification := true,
    synonyms := [], createdAt := none, lastUpdated := none }

/-! ## Theorems -/

theorem uint32_le_iff {a b : UInt32} : a ≤ b ↔ a.toNat ≤ b.toNat := by
  rw [UInt32.le_def, BitVec.le_def]; rfl

theorem toNat_toLower_of_upper (c : Char) (h : 65 ≤ c.toNat ∧ c.toNat ≤ 90) :
    (Char.toLower c).toNat = c.toNat + 32 := by
  rw [Char.toLower, if_pos h]
  have hv : Nat.isValidChar (c.toNat + 32) := Or.inl (by omega)
  rw [Char.ofNat, dif_pos hv]
  simp [Char.ofNatAux, Char.toNat, UInt32.toNat, UInt32.ofNat', BitVec.toNat_ofNatLt]

theorem toLower_not_upper (c : Char) : (Char.toLower c).isUpper = false := by
  by_cases h : 65 ≤ c.toNat ∧ c.toNat ≤ 90
  · have h2 := toNat_toLower_of_upper c h
    simp only [Char.isUpper, Bool.and_eq_false_iff]
    right
    simp only [decide_eq_false_iff_not]
    intro hle
    rw [uint32_le_iff] at hle
    have h90 : ((90 : UInt32)).toNat = 90 := rfl
    rw [h90] at hle
    have : (Char.toLower c).toNat = (Char.toLower c).val.toNat := rfl
    omega
  · rw [Char.toLower, if_neg h]
    simp only [Char.isUpper, Bool.and_eq_false_iff]
    by_cases h65 : (65 : UInt32) ≤ c.val
    · right
      simp only [decide_eq_false_iff_not]
      intro hle
      rw [uint32_le_iff] at hle h65
      exact h ⟨h65, hle⟩
    · left
      simp [h65]

theorem toLower_eq_of_not_upper (c : Char) (h : c.isUpper = false) : Char.toLower c = c := by
  rw [Char.toLower, if_neg]
  intro hc
  simp only [Char.isUpper, Bool.and_eq_false_iff, decide_eq_false_iff_not] at h
  rcases h with h | h
  · exact h (uint32_le_iff.2 hc.1)
  · exact h (uint32_le_iff.2 hc.2)

theorem toLower_idem (c : Char) : Char.toLower (Char.toLower c) = Char.toLower c :=
  toLower_eq_of_not_upper _ (toLower_not_upper c)

/-! ## Helper lemmas -/

theorem dedup_length_iff {α} [DecidableEq α] (l : List α) :
    l.dedup.length = l.length ↔ l.Nodup := by
  constructor
  · intro h
    have hs : List.Sublist l.dedup l := List.dedup_sublist l
    have he : l.dedup = l := hs.eq_of_length h
    rw [← he]
    exact l.nodup_dedup
  · intro h
    rw [h.dedup]

theorem containsAppendLeft {i s : List Char} (t : List Char) (h : i <:+: s) :
    i <:+: t ++ s := by
  obtain ⟨a, b, hab⟩ := h
  exact ⟨t ++ a, b, by rw [← hab]; simp⟩

theorem containsAppendRight {i s : List Char} (t : List Char) (h : i <:+: s) :
    i <:+: s ++ t := by
  obtain ⟨a, b, hab⟩ := h
  exact ⟨a, b ++ t, by rw [← hab]; simp⟩

theorem len_append_ge (a b : Str) (k : Nat) (h : k ≤ b.length) :
    k ≤ (a ++ b).length := by
  rw [List.length_append]; omega

theorem validateQuiz_true_iff (q : QuizModule) :
    (validateQuiz q).isValid = true ↔
      (10 ≤ q.question.length ∧ (js "?") <:+: q.question ∧
       (q.options.length = 3 ∨ q.options.length = 4) ∧
       q.correctAnswer ∈ q.options ∧ q.options.Nodup ∧
       20 ≤ q.explanation.length) := by
  rw [show (validateQuiz q).isValid = ((validateQuiz q).issues.length == 0) from rfl,
    beq_iff_eq, List.length_eq_zero]
  simp only [validateQuiz]
  split_ifs with h1 h2 h3 h4 h5 h6 <;>
    simp_all [jsIncludes, decide_eq_false_iff_not, decide_eq_true_eq,
      ← dedup_length_iff] <;>
    omega

theorem validateQuiz_issues_nil_iff (q : QuizModule) :
    (validateQuiz q).issues = [] ↔ (validateQuiz q).isValid = true := by
  have h : (validateQuiz q).isValid = ((validateQuiz q).issues.length == 0) := rfl
  rw [h, beq_iff_eq, List.length_eq_zero]

theorem quizWF_of_none (a : Str) (b : List Str) (c d : Str) (r : Option Str)
    (h : quizWellFormed ⟨a, b, c, d, none⟩) : quizWellFormed ⟨a, b, c, d, r⟩ := h

theorem quizWF_of_parts (q : QuizModule) (h10 : 10 ≤ q.question.length)
    (hq : (js "?") <:+: q.question) (h4 : q.options.length = 4)
    (hnd : q.options.Nodup) (hmem : q.correctAnswer ∈ q.options)
    (h20 : 20 ≤ q.explanation.length) : quizWellFormed q :=
  ⟨(validateQuiz_true_iff q).2 ⟨h10, hq, Or.inr h4, hmem, hnd, h20⟩,
   h4, hnd, hmem, h10, hq, h20⟩

theorem companyQuizWF (n pre post : Str) (opts : List Str) (ca expl : Str)
    (r : Option Str) (hq : (js "?") <:+: post) (h10 : 10 ≤ post.length)
    (h4 : opts.length = 4) (hnd : opts.Nodup) (hmem : ca ∈ opts)
    (h20 : 20 ≤ expl.length) :
    quizWellFormed ⟨(pre ++ n) ++ post, opts, ca, n ++ expl, r⟩ :=
  quizWF_of_parts _ (len_append_ge _ _ _ h10) (containsAppendLeft _ hq)
    h4 hnd hmem (len_append_ge _ _ _ h20)

/-! ## Claim C5 -/

/-- C5: for every QuizItem `q`, `validateQuiz q` reports `isValid = true`
exactly when the question has length at least 10 and contains a question
mark, there are 3 or 4 options, the correct answer is one of the
options, the options are pairwise distinct, and the explanation has
length at least 20; and the issues list is empty exactly when
`isValid = true`. -/
theorem c5_validateQuiz_characterization (q : QuizModule) :
    ((validateQuiz q).isValid = true ↔
      (10 ≤ q.question.length ∧ (js "?") <:+: q.question ∧
       (q.options.length = 3 ∨ q.options.length = 4) ∧
       q.correctAnswer ∈ q.options ∧ q.options.Nodup ∧
       20 ≤ q.explanation.length)) ∧
    ((validateQuiz q).issues = [] ↔ (validateQuiz q).isValid = true) :=
  ⟨validateQuiz_true_iff q, validateQuiz_issues_nil_iff q⟩

/-! ## Claim C10 -/

/-- C10: every quiz produced by the four domain-template generators
(`generateEmploymentQuiz`, `generateStrataQuiz`,
`generateDataProtectionQuiz`, and `generateCompanyPolicyQuiz` for every
possible company name) passes `validateQuiz`, with exactly 4 pairwise
distinct options including the correct answer, a question of length at
least 10 containing a question mark, and an explanation of length at
least 20. -/
theorem c10_domain_templates_pass_validation :
    (∀ m q, generateEmploymentQuiz m = some q → quizWellFormed q) ∧
    (∀ m q, generateStrataQuiz m = some q → quizWellFormed q) ∧
    (∀ m q, generateDataProtectionQuiz m = some q → quizWellFormed q) ∧
    (∀ m companyName q,
      generateCompanyPolicyQuiz m companyName = some q → quizWellFormed q) := by
  refine ⟨?_, ?_, ?_, ?_⟩
  · intro m q h
    simp only [generateEmploymentQuiz] at h
    split_ifs at h
    all_goals first
      | exact Option.noConfusion h
      | (injection h with h; subst h; exact quizWF_of_none _ _ _ _ _ (by decide))
  · intro m q h
    simp only [generateStrataQuiz] at h
    split_ifs at h
    all_goals first
      | exact Option.noConfusion h
      | (injection h with h; subst h; exact quizWF_of_none _ _ _ _ _ (by decide))
  · intro m q h
    simp only [generateDataProtectionQuiz] at h
    split_ifs at h
    all_goals first
      | exact Option.noConfusion h
      | (injection h with h; subst h; exact quizWF_of_none _ _ _ _ _ (by decide))
  · intro m companyName q h
    simp only [generateCompanyPolicyQuiz] at h
    split_ifs at h
    all_goals first
      | exact Option.noConfusion h
      | (injection h with h; subst h;
         exact companyQuizWF _ _ _ _ _ _ _ (by decide) (by decide) (by decide)
           (by decide) (by decide) (by decide))

/-- Witness for C10: the harassment company-policy template at company
name "Desaria Group" yields a quiz satisfying the full bundle. -/
theorem c10_witness :
    quizWellFormed
      { question := js "What is Desaria Group\x27s policy on workplace harassment?",
        options := [js "Case-by-case basis", js "Zero tolerance",
                    js "Warning system", js "Mediation first"],
        correctAnswer := js "Zero tolerance",
        explanation := js "Desaria Group maintains a zero tolerance policy for harassment and ensures compliance with PDPA and professional conduct standards.",
        sourceRef := some (js "ref") } :=
  c10_domain_templates_pass_validation.2.2.2
    ⟨js "Company policy overview",
     js "Covers harassment prevention rules for all staff members",
     some (js "ref")⟩
    (js "Desaria Group") _ (by decide)

/-! ## Claim C8 -/

theorem ite_pres {α} (P : α → Prop) (b : Prop) [Decidable b] (t e : α)
    (ht : P t) (he : P e) : P (if b then t else e) := by
  by_cases hb : b
  · rwa [if_pos hb]
  · rwa [if_neg hb]

theorem curated_cases (c : Str) :
    curatedDistractors c = [] ∨
    ((curatedDistractors c).length = 3 ∧ (curatedDistractors c).Nodup ∧
      curatedDistractors c ≠ []) := by
  unfold curatedDistractors
  iterate 11
    refine ite_pres (fun l => l = [] ∨ (l.length = 3 ∧ l.Nodup ∧ l ≠ [])) _ _ _
      (by decide) ?_
  exact Or.inl rfl

theorem pad_nil (c : Str) (acc : List Str) :
    padDistractors c [] acc = if acc.length < 3 then none else some acc := rfl

theorem pad_cons (c : Str) (d : Fin 7) (ds : List (Fin 7)) (acc : List Str) :
    padDistractors c (d :: ds) acc =
      if acc.length < 3 then
        (if genericOptions.getD d.val (js "Not specified") ∈ acc ∨
            genericOptions.getD d.val (js "Not specified") = c then
          padDistractors c ds acc
        else
          padDistractors c ds (acc ++ [genericOptions.getD d.val (js "Not specified")]))
      else some acc := rfl

theorem pad_invariant (c : Str) :
    ∀ (draws : List (Fin 7)) (acc r : List Str), acc.Nodup → c ∉ acc →
      acc.length ≤ 3 → padDistractors c draws acc = some r →
      r.length = 3 ∧ r.Nodup ∧ c ∉ r := by
  intro draws
  induction draws with
  | nil =>
    intro acc r hnd hc hlen h
    rw [pad_nil] at h
    split_ifs at h with h3
    all_goals first
      | exact Option.noConfusion h
      | (injection h with h; subst h; exact ⟨by omega, hnd, hc⟩)
  | cons d ds ih =>
    intro acc r hnd hc hlen h
    rw [pad_cons] at h
    split_ifs at h with h3 hskip
    · exact ih acc r hnd hc hlen h
    · push_neg at hskip
      refine ih _ r ?_ ?_ ?_ h
      · rw [List.nodup_append]
        refine ⟨hnd, List.nodup_singleton _, ?_⟩
        intro x hx hx1
        rw [List.mem_singleton] at hx1
        subst hx1
        exact hskip.1 hx
      · rw [List.mem_append, List.mem_singleton]
        rintro (hmem | heq)
        · exact hc hmem
        · exact hskip.2 heq.symm
      · rw [List.length_append]
        simp only [List.length_singleton]
        omega
    · injection h with h
      subst h
      exact ⟨by omega, hnd, hc⟩

/-- C8 (amended): for every correct answer, context and draw-outcome
sequence, whenever `generateDistractors` returns a result it is a list
of exactly 3 pairwise distinct strings; when no curated shape matched
(the padding path), none of them equals the correct answer.  (The
curated fixed triples themselves may contain the correct answer -- see
the counterexample.) -/
theorem c8_generateDistractors_amended (correctAnswer context : Str)
    (draws : List (Fin 7)) (res : List Str)
    (h : generateDistractors correctAnswer context draws = some res) :
    res.length = 3 ∧ res.Nodup ∧
      (curatedDistractors correctAnswer = [] → correctAnswer ∉ res) := by
  dsimp only [generateDistractors] at h
  rcases curated_cases correctAnswer with hc | ⟨h3, hnd, hne⟩
  · rw [hc] at h
    rw [if_pos (by simp)] at h
    rw [Option.map_eq_some'] at h
    obtain ⟨l, hl, hres⟩ := h
    obtain ⟨hlen, hlnd, hlc⟩ := pad_invariant correctAnswer draws [] l
      List.nodup_nil (List.not_mem_nil _) (by simp) hl
    subst hres
    rw [List.take_of_length_le (by omega)]
    exact ⟨hlen, hlnd, fun _ => hlc⟩
  · rw [if_neg (by omega)] at h
    injection h with h
    subst h
    rw [List.take_of_length_le (by omega)]
    exact ⟨h3, hnd, fun habs => absurd habs hne⟩

/-- Witness for C8 amended: the padding path with correct answer
"Approved" and draw sequence [0,1,2] produces three distinct generic
distractors none of which is the correct answer. -/
theorem c8_witness :
    ((generateDistractors (js "Approved") (js "") [0, 1, 2] =
        some [js "Not specified", js "At management discretion", js "As per company policy"]) ∧
      ([js "Not specified", js "At management discretion", js "As per company policy"].length = 3 ∧
       [js "Not specified", js "At management discretion", js "As per company policy"].Nodup ∧
       (curatedDistractors (js "Approved") = [] →
         js "Approved" ∉ [js "Not specified", js "At management discretion", js "As per company policy"]))) :=
  ⟨by decide,
   c8_generateDistractors_amended (js "Approved") (js "") [0, 1, 2] _ (by decide)⟩

/-- Counterexample to C8 as stated: for correct answer "3 months" the
month-shaped curated triple is returned and it contains the correct
answer itself. -/
theorem c8_counterexample :
    generateDistractors (js "3 months") (js "") [] =
      some [js "2 weeks", js "3 months", js "6 months"] ∧
    js "3 months" ∈ [js "2 weeks", js "3 months", js "6 months"] := by
  constructor
  · decide
  · decide

/-! ## Claim C4 -/

/-- C4 (amended): `generateQuizForModule` returns `none` exactly when
the summary is shorter than 20 characters or the title is empty, or
when no domain template matches and the summary has fewer than 3 words
longer than 4 characters; in every other no-template case it returns
the generic comprehension quiz whose correct answer is the truncated
summary excerpt and whose distractors are the fixed boilerplate
phrases. -/
theorem c4_generateQuizForModule_amended (m : ModuleInfo)
    (cc : Option CompanyMetadataEnhanced) :
    (generateQuizForModule m cc = none ↔
      ((m.summary.length < 20 ∨ m.title = []) ∨
        (generateEmploymentQuiz m = none ∧ generateStrataQuiz m = none ∧
         generateDataProtectionQuiz m = none ∧
         (∀ ctx, cc = some ctx → generateCompanyPolicyQuiz m ctx.companyName = none) ∧
         (genericWordsOf m).length < 3))) ∧
    (¬ (m.summary.length < 20 ∨ m.title = []) →
     generateEmploymentQuiz m = none → generateStrataQuiz m = none →
     generateDataProtectionQuiz m = none →
     (∀ ctx, cc = some ctx → generateCompanyPolicyQuiz m ctx.companyName = none) →
     3 ≤ (genericWordsOf m).length →
     generateQuizForModule m cc = some
       { question := js "What is the main focus of \x22" ++ m.title ++ js "\x22?",
         options := [m.summary.take 50 ++ js "...",
                     js "General compliance requirements",
                     js "Administrative procedures",
                     js "Training documentation"],
         correctAnswer := m.summary.take 50 ++ js "...",
         explanation := js "This module focuses on " ++ lowerStr m.title ++ js ", covering the key aspects described in the training content.",
         sourceRef := m.reference }) := by
  by_cases hg : m.summary.length < 20 ∨ m.title = []
  · refine ⟨⟨fun _ => Or.inl hg, fun _ => ?_⟩, fun hng => absurd hg hng⟩
    simp [generateQuizForModule, hg]
  · rcases cc with _ | ctx
    · rcases he : generateEmploymentQuiz m with _ | qe <;>
      rcases hs : generateStrataQuiz m with _ | qs <;>
      rcases hd : generateDataProtectionQuiz m with _ | qd <;>
      by_cases hw : (genericWordsOf m).length < 3 <;>
      simp_all [generateQuizForModule, generateGenericQuiz]
    · rcases he : generateEmploymentQuiz m with _ | qe <;>
      rcases hs : generateStrataQuiz m with _ | qs <;>
      rcases hd : generateDataProtectionQuiz m with _ | qd <;>
      rcases hc : generateCompanyPolicyQuiz m ctx.companyName with _ | qc <;>
      by_cases hw : (genericWordsOf m).length < 3 <;>
      simp_all [generateQuizForModule, generateGenericQuiz]

/-- Witness for C4 amended: a module whose summary is long enough,
matches no domain template, and has at least 3 long words produces the
generic quiz. -/
theorem c4_witness :
    generateQuizForModule
      ⟨js "Workplace orientation basics",
       js "Covers important workplace orientation ideas for beginners",
       some (js "ref")⟩ none =
      some
        { question := js "What is the main focus of \x22Workplace orientation basics\x22?",
          options := [(js "Covers important workplace orientation ideas for beginners").take 50 ++ js "...",
                      js "General compliance requirements",
                      js "Administrative procedures",
                      js "Training documentation"],
          correctAnswer := (js "Covers important workplace orientation ideas for beginners").take 50 ++ js "...",
          explanation := js "This module focuses on workplace orientation basics, covering the key aspects described in the training content.",
          sourceRef := some (js "ref") } := by
  have h := (c4_generateQuizForModule_amended
    ⟨js "Workplace orientation basics",
     js "Covers important workplace orientation ideas for beginners",
     some (js "ref")⟩ none).2
    (by decide) (by decide) (by decide) (by decide)
    (fun ctx hctx => Option.noConfusion hctx) (by decide)
  rw [h]
  decide

/-- Counterexample to C4 as stated: a module with a 21-character summary
of single-letter words and a non-empty title yields `none` even though
the claim says every such module gets a quiz. -/
theorem c4_counterexample :
    generateQuizForModule ⟨js "t", js "a b c d e f g h i j k", none⟩ none = none ∧
    ¬ ((js "a b c d e f g h i j k").length < 20) ∧ (js "t") ≠ ([] : Str) := by
  refine ⟨?_, by decide, by decide⟩
  decide

/-! ## Claim C6 -/

theorem find_first {α} (p : α → Bool) :
    ∀ (l : List α) (n : Nat) (hn : n < l.length), p (l.get ⟨n, hn⟩) = true →
    (∀ i (hi : i < n), p (l.get ⟨i, Nat.lt_trans hi hn⟩) = false) →
    l.find? p = some (l.get ⟨n, hn⟩) := by
  intro l
  induction l with
  | nil => intro n hn; simp at hn
  | cons x xs ih =>
    intro n hn hp h0
    cases n with
    | zero =>
      exact List.find?_cons_of_pos _ hp
    | succ k =>
      have hx : p x = false := h0 0 (Nat.succ_pos k)
      rw [List.find?_cons_of_neg _ (by simp [hx])]
      exact ih k (Nat.lt_of_succ_lt_succ hn) hp
        (fun i hi => h0 (i + 1) (Nat.succ_lt_succ hi))

/-- C6: `categorizeLegalContent` always returns a non-empty string;
when several table keywords occur in the lowercased text the result is
the category of the earliest entry in the fixed table order; when none
occurs it returns "General Law". -/
theorem c6_categorizeLegalContent (title content : Str) :
    categorizeLegalContent title content ≠ [] ∧
    (∀ n (hn : n < LAW_CATEGORIES.length),
      jsIncludes (lowerStr (title ++ js " " ++ content))
        (LAW_CATEGORIES.get ⟨n, hn⟩).1 = true →
      (∀ i (hi : i < n),
        jsIncludes (lowerStr (title ++ js " " ++ content))
          (LAW_CATEGORIES.get ⟨i, Nat.lt_trans hi hn⟩).1 = false) →
      categorizeLegalContent title content = (LAW_CATEGORIES.get ⟨n, hn⟩).2) ∧
    ((∀ p ∈ LAW_CATEGORIES,
        jsIncludes (lowerStr (title ++ js " " ++ content)) p.1 = false) →
      categorizeLegalContent title content = js "General Law") := by
  refine ⟨?_, ?_, ?_⟩
  · have hall : ∀ p ∈ LAW_CATEGORIES, p.2 ≠ ([] : Str) := by decide
    unfold categorizeLegalContent
    rcases hf : LAW_CATEGORIES.find?
        (fun p => jsIncludes (lowerStr (title ++ js " " ++ content)) p.1) with _ | q
    · simp only [hf]
      decide
    · simp only [hf]
      exact hall q (List.mem_of_find?_eq_some hf)
  · intro n hn hp h0
    unfold categorizeLegalContent
    rw [find_first _ LAW_CATEGORIES n hn hp h0]
  · intro hnone
    unfold categorizeLegalContent
    rw [List.find?_eq_none.2
      (fun p hp => by simp only [hnone p hp]; exact Bool.false_ne_true)]

/-- Witness for C6: "strata" is entry 0 of the table, so a text
containing both "employment" and "strata" is categorized as
"Strata Management". -/
theorem c6_witness :
    categorizeLegalContent (js "Employment and strata matters") (js "") =
      js "Strata Management" :=
  (c6_categorizeLegalContent (js "Employment and strata matters") (js "")).2.1
    0 (by decide) (by decide) (fun i hi => absurd hi (Nat.not_lt_zero i))

/-! ## Claim C7 -/

theorem dedupFirst_nil {α} [DecidableEq α] (seen : List α) :
    dedupFirst seen ([] : List α) = [] := rfl

theorem dedupFirst_cons {α} [DecidableEq α] (seen : List α) (y : α) (ys : List α) :
    dedupFirst seen (y :: ys) =
      if y ∈ seen then dedupFirst seen ys else y :: dedupFirst (y :: seen) ys := rfl

theorem dedupFirst_mem {α} [DecidableEq α] :
    ∀ (l seen : List α) (x : α), x ∈ dedupFirst seen l → x ∈ l ∧ x ∉ seen := by
  intro l
  induction l with
  | nil => intro seen x hx; rw [dedupFirst_nil] at hx; exact absurd hx (List.not_mem_nil x)
  | cons y ys ih =>
    intro seen x hx
    rw [dedupFirst_cons] at hx
    split_ifs at hx with hy
    · obtain ⟨hmem, hns⟩ := ih seen x hx
      exact ⟨List.mem_cons_of_mem _ hmem, hns⟩
    · rcases List.mem_cons.1 hx with rfl | hx2
      · exact ⟨List.mem_cons_self _ _, hy⟩
      · obtain ⟨hmem, hns⟩ := ih (y :: seen) x hx2
        exact ⟨List.mem_cons_of_mem _ hmem,
          fun hs => hns (List.mem_cons_of_mem _ hs)⟩

theorem dedupFirst_nodup {α} [DecidableEq α] :
    ∀ (l seen : List α), (dedupFirst seen l).Nodup := by
  intro l
  induction l with
  | nil => intro seen; rw [dedupFirst_nil]; exact List.nodup_nil
  | cons y ys ih =>
    intro seen
    rw [dedupFirst_cons]
    split_ifs with hy
    · exact ih seen
    · refine List.nodup_cons.2 ⟨?_, ih (y :: seen)⟩
      intro hmem
      exact (dedupFirst_mem ys (y :: seen) y hmem).2 (List.mem_cons_self _ _)

theorem firstIdx_cons {α} [DecidableEq α] (x y : α) (l : List α) :
    firstIdx x (y :: l) = if y = x then 0 else firstIdx x l + 1 := rfl

theorem dedupFirst_pairwise {α} [DecidableEq α] :
    ∀ (l seen : List α),
      (dedupFirst seen l).Pairwise (fun a b => firstIdx a l < firstIdx b l) := by
  intro l
  induction l with
  | nil => intro seen; rw [dedupFirst_nil]; exact List.Pairwise.nil
  | cons y ys ih =>
    intro seen
    rw [dedupFirst_cons]
    split_ifs with hy
    · refine List.Pairwise.imp_of_mem ?_ (ih seen)
      intro a b ha hb hab
      have hay : y ≠ a := fun h => (dedupFirst_mem ys seen a ha).2 (h ▸ hy)
      have hby : y ≠ b := fun h => (dedupFirst_mem ys seen b hb).2 (h ▸ hy)
      rw [firstIdx_cons, if_neg hay, firstIdx_cons, if_neg hby]
      omega
    · refine List.pairwise_cons.2 ⟨?_, ?_⟩
      · intro b hb
        have hby : y ≠ b := fun h =>
          (dedupFirst_mem ys (y :: seen) b hb).2 (h ▸ List.mem_cons_self _ _)
        rw [firstIdx_cons, if_pos rfl, firstIdx_cons, if_neg hby]
        omega
      · refine List.Pairwise.imp_of_mem ?_ (ih (y :: seen))
        intro a b ha hb hab
        have hay : y ≠ a := fun h =>
          (dedupFirst_mem ys (y :: seen) a ha).2 (h ▸ List.mem_cons_self _ _)
        have hby : y ≠ b := fun h =>
          (dedupFirst_mem ys (y :: seen) b hb).2 (h ▸ List.mem_cons_self _ _)
        rw [firstIdx_cons, if_neg hay, firstIdx_cons, if_neg hby]
        omega

theorem splitWs_ne_nil : ∀ s : Str, splitWs s ≠ [] := by
  intro s
  induction s with
  | nil => simp [splitWs]
  | cons c cs ih =>
    rw [splitWs]
    split_ifs
    · simp
    · rcases h : splitWs cs with _ | ⟨t, ts⟩ <;> simp

theorem splitWs_chars :
    ∀ (s w : Str), w ∈ splitWs s → ∀ c ∈ w, c ∈ s ∧ isJsSpace c = false := by
  intro s
  induction s with
  | nil =>
    intro w hw c hc
    rw [show splitWs [] = [[]] from rfl, List.mem_singleton] at hw
    subst hw
    exact absurd hc (List.not_mem_nil c)
  | cons a as ih =>
    intro w hw c hc
    rw [splitWs] at hw
    split_ifs at hw with ha
    · rcases List.mem_cons.1 hw with rfl | hw2
      · exact absurd hc (List.not_mem_nil c)
      · obtain ⟨hcs, hsp⟩ := ih w hw2 c hc
        exact ⟨List.mem_cons_of_mem _ hcs, hsp⟩
    · rcases hsp : splitWs as with _ | ⟨t, ts⟩
      · exact absurd hsp (splitWs_ne_nil as)
      · rw [hsp] at hw
        rcases List.mem_cons.1 hw with rfl | hw2
        · rcases List.mem_cons.1 hc with rfl | hct
          · exact ⟨List.mem_cons_self _ _, Bool.eq_false_iff.2 ha⟩
          · obtain ⟨hcs, hspc⟩ :=
              ih t (by rw [hsp]; exact List.mem_cons_self _ _) c hct
            exact ⟨List.mem_cons_of_mem _ hcs, hspc⟩
        · obtain ⟨hcs, hspc⟩ :=
            ih w (by rw [hsp]; exact List.mem_cons_of_mem _ hw2) c hc
          exact ⟨List.mem_cons_of_mem _ hcs, hspc⟩

theorem replaceNonWord_lower_char (text : Str) (c : Char)
    (hc : c ∈ replaceNonWord (lowerStr text)) (hsp : isJsSpace c = false) :
    Char.toLower c = c := by
  rw [replaceNonWord, lowerStr, List.map_map] at hc
  obtain ⟨c0, _, hco⟩ := List.mem_map.1 hc
  simp only [Function.comp_apply] at hco
  split_ifs at hco
  · subst hco
    exact absurd hsp (by decide)
  · subst hco
    exact toLower_idem c0

theorem map_self_of_fix {α} (f : α → α) :
    ∀ (l : List α), (∀ x ∈ l, f x = x) → l.map f = l := by
  intro l
  induction l with
  | nil => intro _; rfl
  | cons x xs ih =>
    intro h
    rw [List.map_cons, h x (List.mem_cons_self _ _),
      ih (fun y hy => h y (List.mem_cons_of_mem _ hy))]

/-- C7: `extractKeywords` returns at most 20 pairwise distinct tokens,
each longer than 3 characters, outside the stop-word list, and fixed by
lowercasing; the tokens are listed in order of first occurrence in the
filtered token stream; and the function is deterministic. -/
theorem c7_extractKeywords (text : Str) :
    (extractKeywords text).length ≤ 20 ∧
    (extractKeywords text).Nodup ∧
    (∀ w ∈ extractKeywords text,
      3 < w.length ∧ w ∉ commonWords ∧ lowerStr w = w) ∧
    (extractKeywords text).Pairwise
      (fun a b => firstIdx a (filteredTokens text) < firstIdx b (filteredTokens text)) ∧
    (∀ s : Str, s = text → extractKeywords s = extractKeywords text) := by
  refine ⟨List.length_take_le _ _,
    List.Nodup.sublist (List.take_sublist _ _) (dedupFirst_nodup _ []),
    ?_,
    List.Pairwise.sublist (List.take_sublist _ _) (dedupFirst_pairwise _ []),
    fun s hs => by rw [hs]⟩
  intro w hw
  have hw2 : w ∈ dedupFirst [] (filteredTokens text) := List.take_subset _ _ hw
  have hw3 : w ∈ filteredTokens text := (dedupFirst_mem _ [] w hw2).1
  obtain ⟨hmem, hfil⟩ := List.mem_filter.1 hw3
  rw [Bool.and_eq_true, decide_eq_true_eq, decide_eq_true_eq] at hfil
  refine ⟨hfil.1, hfil.2, ?_⟩
  refine map_self_of_fix _ w (fun c hc => ?_)
  obtain ⟨hcmem, hcsp⟩ := splitWs_chars _ w hmem c hc
  exact replaceNonWord_lower_char text c hcmem hcsp

/-- Witness for C7: on a concrete text, the extracted keyword "strata"
satisfies the per-token properties. -/
theorem c7_witness :
    3 < (js "strata").length ∧ (js "strata") ∉ commonWords ∧
      lowerStr (js "strata") = js "strata" :=
  (c7_extractKeywords (js "Strata strata management!")).2.2.1
    (js "strata") (by decide)

/-! ## Claim C9 -/

theorem findIndex_none {α} (p : α → Bool) :
    ∀ l : List α, findIndex p l = none → ∀ x ∈ l, p x = false := by
  intro l
  induction l with
  | nil => intro _ x hx; exact absurd hx (List.not_mem_nil x)
  | cons y ys ih =>
    intro h x hx
    rw [findIndex] at h
    split_ifs at h with hy
    rw [Option.map_eq_none'] at h
    rcases List.mem_cons.1 hx with rfl | hx2
    · exact Bool.eq_false_iff.2 hy
    · exact ih h x hx2

theorem findIndex_some {α} (p : α → Bool) :
    ∀ (l : List α) (i : Nat), findIndex p l = some i →
      ∃ hi : i < l.length, p (l.get ⟨i, hi⟩) = true := by
  intro l
  induction l with
  | nil => intro i h; exact Option.noConfusion h
  | cons y ys ih =>
    intro i h
    rw [findIndex] at h
    split_ifs at h with hy
    · injection h with h
      subst h
      exact ⟨Nat.succ_pos _, hy⟩
    · rw [Option.map_eq_some'] at h
      obtain ⟨k, hk, hki⟩ := h
      subst hki
      obtain ⟨hklen, hpk⟩ := ih k hk
      exact ⟨Nat.succ_lt_succ hklen, hpk⟩

theorem map_set_self {α β} (f : α → β) :
    ∀ (l : List α) (i : Nat) (v : α) (hi : i < l.length),
      f v = f (l.get ⟨i, hi⟩) → (l.set i v).map f = l.map f := by
  intro l
  induction l with
  | nil => intro i v hi; simp at hi
  | cons y ys ih =>
    intro i v hi hfv
    cases i with
    | zero =>
      rw [List.set_cons_zero, List.map_cons, List.map_cons, hfv]
      rfl
    | succ k =>
      rw [List.set_cons_succ, List.map_cons, List.map_cons,
        ih k v (Nat.lt_of_succ_lt_succ hi) hfv]

theorem get?_set_self {α} :
    ∀ (l : List α) (i : Nat) (v : α), i < l.length →
      (l.set i v).get? i = some v := by
  intro l
  induction l with
  | nil => intro i v hi; simp at hi
  | cons y ys ih =>
    intro i v hi
    cases i with
    | zero => rfl
    | succ k => exact ih k v (Nat.lt_of_succ_lt_succ hi)

theorem get?_set_other {α} :
    ∀ (l : List α) (i j : Nat) (v : α), j ≠ i →
      (l.set i v).get? j = l.get? j := by
  intro l
  induction l with
  | nil => intro i j v _; rfl
  | cons y ys ih =>
    intro i j v hne
    cases i with
    | zero =>
      cases j with
      | zero => exact absurd rfl hne
      | succ k => rfl
    | succ i2 =>
      cases j with
      | zero => rfl
      | succ k => exact ih i2 k v (fun h => hne (by rw [h]))

/-- C9: `saveCompanyMetadata` is an upsert preserving the
one-record-per-companyId invariant.  If a record with the given
`companyId` exists it is replaced in place -- same length, identical
companyId sequence, original `createdAt` kept, `lastUpdated := now`,
all other records untouched; otherwise a new record with
`createdAt = lastUpdated = now` is appended. -/
theorem c9_saveCompanyMetadata (store : List CompanyMetadataEnhanced)
    (data : CompanyMetadataInput) (now : Str)
    (hN : (store.map (fun c => c.companyId)).Nodup) :
    ((saveCompanyMetadata store data now).map (fun c => c.companyId)).Nodup ∧
    (∀ i old,
      findIndex (fun c => decide (c.companyId = data.companyId)) store = some i →
      store.get? i = some old →
      (saveCompanyMetadata store data now).length = store.length ∧
      ((saveCompanyMetadata store data now).map (fun c => c.companyId)) =
        (store.map (fun c => c.companyId)) ∧
      (saveCompanyMetadata store data now).get? i =
        some { companyId := data.companyId, companyName := data.companyName,
               contactEmail := data.contactEmail, policies := data.policies,
               createdAt := old.createdAt, lastUpdated := some now } ∧
      (∀ j, j ≠ i →
        (saveCompanyMetadata store data now).get? j = store.get? j)) ∧
    (findIndex (fun c => decide (c.companyId = data.companyId)) store = none →
      saveCompanyMetadata store data now =
        store ++ [{ companyId := data.companyId, companyName := data.companyName,
                    contactEmail := data.contactEmail, policies := data.policies,
                    createdAt := some now, lastUpdated := some now }]) := by
  rcases hf : findIndex (fun c => decide (c.companyId = data.companyId)) store
    with _ | i
  · have hdef : saveCompanyMetadata store data now =
        store ++ [{ companyId := data.companyId, companyName := data.companyName,
                    contactEmail := data.contactEmail, policies := data.policies,
                    createdAt := some now, lastUpdated := some now }] := by
      simp only [saveCompanyMetadata, hf]
    have hnotin : data.companyId ∉ store.map (fun c => c.companyId) := by
      intro hmem
      obtain ⟨c, hc, hcid⟩ := List.mem_map.1 hmem
      have hfx := findIndex_none _ store hf c hc
      rw [decide_eq_false_iff_not] at hfx
      exact hfx hcid
    refine ⟨?_, fun i old hi => Option.noConfusion (hf ▸ hi), fun _ => hdef⟩
    rw [hdef, List.map_append, List.nodup_append]
    refine ⟨hN, List.nodup_singleton _, ?_⟩
    intro x hx hx1
    rw [List.map_singleton, List.mem_singleton] at hx1
    subst hx1
    exact hnotin hx
  · obtain ⟨hi, hpi⟩ := findIndex_some _ store i hf
    rw [decide_eq_true_eq] at hpi
    have hget : store.get? i = some (store.get ⟨i, hi⟩) := List.get?_eq_get hi
    have hdef : saveCompanyMetadata store data now =
        store.set i
          { companyId := data.companyId, companyName := data.companyName,
            contactEmail := data.contactEmail, policies := data.policies,
            createdAt := (store.get ⟨i, hi⟩).createdAt,
            lastUpdated := some now } := by
      simp only [saveCompanyMetadata, hf, hget]
    have hmap : (saveCompanyMetadata store data now).map (fun c => c.companyId) =
        store.map (fun c => c.companyId) := by
      rw [hdef]
      exact map_set_self _ store i _ hi hpi.symm
    refine ⟨by rw [hmap]; exact hN, ?_,
      fun habs => Option.noConfusion (hf ▸ habs)⟩
    intro i2 old hfi hold
    have hieq : i2 = i := by
      have hinj := hf ▸ hfi
      injection hinj with h
      exact h.symm
    subst hieq
    have holdeq : old = store.get ⟨i2, hi⟩ := by
      rw [hget] at hold
      injection hold with h
      exact h.symm
    subst holdeq
    refine ⟨by rw [hdef, List.length_set], hmap, ?_, ?_⟩
    · rw [hdef]
      exact get?_set_self store i2 _ hi
    · intro j hj
      rw [hdef]
      exact get?_set_other store i2 j _ hj

/-- Witness for C9: re-saving an existing companyId keeps `createdAt`,
bumps `lastUpdated`, and leaves the id sequence unchanged. -/
theorem c9_witness :
    ((saveCompanyMetadata [c9rec] c9data (js "2024-02-02")).map
        (fun c => c.companyId)).Nodup ∧
    ((saveCompanyMetadata [c9rec] c9data (js "2024-02-02")).length =
        ([c9rec] : List CompanyMetadataEnhanced).length ∧
      ((saveCompanyMetadata [c9rec] c9data (js "2024-02-02")).map
          (fun c => c.companyId)) =
        (([c9rec] : List CompanyMetadataEnhanced).map (fun c => c.companyId)) ∧
      (saveCompanyMetadata [c9rec] c9data (js "2024-02-02")).get? 0 =
        some { companyId := c9data.companyId, companyName := c9data.companyName,
               contactEmail := c9data.contactEmail, policies := c9data.policies,
               createdAt := c9rec.createdAt,
               lastUpdated := some (js "2024-02-02") } ∧
      (∀ j, j ≠ 0 →
        (saveCompanyMetadata [c9rec] c9data (js "2024-02-02")).get? j =
          ([c9rec] : List CompanyMetadataEnhanced).get? j)) :=
  ⟨(c9_saveCompanyMetadata [c9rec] c9data (js "2024-02-02") (by decide)).1,
   (c9_saveCompanyMetadata [c9rec] c9data (js "2024-02-02") (by decide)).2.1
     0 c9rec (by decide) (by decide)⟩

/-! ## Claim C1 -/

/-- C1: the flow fails with the explicit insufficient-content error
exactly when the assembled legal text and the assembled company context
are both empty; when at least one is non-empty (and the outside prompt
service produces a non-empty plan text) a plan is produced. -/
theorem c1_insufficient_content (env : FlowEnv) (input : FlowInput)
    (log : List UnresolvedTopic)
    (hp : ∀ p, ∃ s, env.promptFn p = some s ∧ s ≠ []) :
    (((fetchLegalContent env.library
        (resolveTrainingTopic env.library input.trainingFocus).clarifiedTopic).legalText = [] ∧
      (companyContextOf env input
        (resolveTrainingTopic env.library input.trainingFocus).clarifiedTopic).contextualizedContent = []) →
      (generateEnhancedLessonPlan env input log).1 =
        Except.error (insufficientMsg input.trainingFocus)) ∧
    (¬ ((fetchLegalContent env.library
        (resolveTrainingTopic env.library input.trainingFocus).clarifiedTopic).legalText = [] ∧
      (companyContextOf env input
        (resolveTrainingTopic env.library input.trainingFocus).clarifiedTopic).contextualizedContent = []) →
      ∃ out, (generateEnhancedLessonPlan env input log).1 = Except.ok out) := by
  constructor
  · intro hcond
    simp only [generateEnhancedLessonPlan]
    rw [if_pos hcond]
  · intro hne
    simp only [generateEnhancedLessonPlan]
    rw [if_neg hne]
    obtain ⟨s, hs, hsne⟩ := hp
      { trainingFocus := input.trainingFocus,
        clarifiedTopic :=
          (resolveTrainingTopic env.library input.trainingFocus).clarifiedTopic,
        seniorityLevel := input.seniorityLevel,
        learningScope := input.learningScope,
        duration := input.duration,
        legalContent :=
          if (fetchLegalContent env.library
              (resolveTrainingTopic env.library input.trainingFocus).clarifiedTopic).legalText = [] then
            js "No specific legal content available for this topic."
          else (fetchLegalContent env.library
              (resolveTrainingTopic env.library input.trainingFocus).clarifiedTopic).legalText,
        companyContext :=
          if (companyContextOf env input
              (resolveTrainingTopic env.library input.trainingFocus).clarifiedTopic).contextualizedContent = [] then
            js "No company-specific policies configured."
          else (companyContextOf env input
              (resolveTrainingTopic env.library input.trainingFocus).clarifiedTopic).contextualizedContent,
        companyName :=
          (companyContextOf env input
            (resolveTrainingTopic env.library input.trainingFocus).clarifiedTopic).companyName }
    rw [hs]
    dsimp only
    rw [if_neg hsne]
    exact ⟨_, rfl⟩

/-- Witness for C1: with an empty corpus and no company, the flow
returns the explicit insufficient-content error. -/
theorem c1_witness :
    (generateEnhancedLessonPlan c1env c1input []).1 =
      Except.error (insufficientMsg (js "xyz")) :=
  (c1_insufficient_content c1env c1input []
    (fun _ => ⟨js "plan", rfl, by decide⟩)).1 ⟨rfl, rfl⟩

/-! ## Claim C2 -/

theorem flow_log_shape (env : FlowEnv) (input : FlowInput)
    (log : List UnresolvedTopic) :
    (generateEnhancedLessonPlan env input log).2 = flowLog1 env input log ∨
    (generateEnhancedLessonPlan env input log).2 =
      flowLog1 env input log ++
        [{ topic := input.trainingFocus, timestamp := env.now,
           reason := unresolvedReasonNeither }] := by
  simp only [generateEnhancedLessonPlan]
  split
  · exact Or.inr rfl
  · split
    · exact Or.inl rfl
    · split
      · exact Or.inl rfl
      · exact Or.inl rfl

theorem head_of_eq_cons {α} (l : List α) (h : l ≠ []) (d : α) (ds : List α)
    (heq : l = d :: ds) : l.head h = d := by
  subst heq
  rfl

/-- C2: the Topic Resolver returns confidence 9/10 when the direct
corpus search has two or more matches, 7/10 when it has exactly one,
1/2 when it is empty but the HR-relevant keyword fallback matches (with
the clarified topic set to the first such match's category), and 0 when
nothing matches, in which case the clarified topic is the unchanged
input and the flow appends an unresolved-topic record to the log. -/
theorem c2_topic_resolver_confidence (library : List LegalDocument) (q : Str) :
    (2 ≤ (searchLegalLibrary library q).length →
      (resolveTrainingTopic library q).confidence = 9/10) ∧
    ((searchLegalLibrary library q).length = 1 →
      (resolveTrainingTopic library q).confidence = 7/10) ∧
    (searchLegalLibrary library q = [] →
      ∀ d ds, fallbackMatches library q = d :: ds →
        (resolveTrainingTopic library q).confidence = 1/2 ∧
        (resolveTrainingTopic library q).clarifiedTopic = d.category) ∧
    (searchLegalLibrary library q = [] → fallbackMatches library q = [] →
      (resolveTrainingTopic library q).confidence = 0 ∧
      (resolveTrainingTopic library q).clarifiedTopic = q) ∧
    (∀ (env : FlowEnv) (input : FlowInput) (log : List UnresolvedTopic),
      env.library = library → input.trainingFocus = q →
      (resolveTrainingTopic library q).confidence = 0 →
      (log ++ [{ topic := q, timestamp := env.now,
                 reason := unresolvedReasonNoMatch }]) <+:
        (generateEnhancedLessonPlan env input log).2) := by
  refine ⟨?_, ?_, ?_, ?_, ?_⟩
  · intro h2
    have hne : searchLegalLibrary library q ≠ [] := by
      intro habs
      rw [habs] at h2
      simp at h2
    simp only [resolveTrainingTopic]
    rw [dif_neg hne]
    simp only
    rw [if_pos h2]
  · intro h1
    have hne : searchLegalLibrary library q ≠ [] := by
      intro habs
      rw [habs] at h1
      simp at h1
    have hn2 : ¬ 2 ≤ (searchLegalLibrary library q).length := by omega
    simp only [resolveTrainingTopic]
    rw [dif_neg hne]
    simp only
    rw [if_neg hn2]
  · intro hdir d ds hfb
    have hne : fallbackMatches library q ≠ [] := by
      rw [hfb]
      exact List.cons_ne_nil d ds
    simp only [resolveTrainingTopic]
    rw [dif_pos hdir, dif_neg hne]
    refine ⟨rfl, ?_⟩
    show ((fallbackMatches library q).head hne).category = d.category
    rw [head_of_eq_cons _ hne d ds hfb]
  · intro hdir hfb
    simp only [resolveTrainingTopic]
    rw [dif_pos hdir, dif_pos hfb]
    exact ⟨rfl, rfl⟩
  · intro env input log henv hinput hconf
    subst henv
    subst hinput
    have hlog1 : flowLog1 env input log =
        log ++ [{ topic := input.trainingFocus, timestamp := env.now,
                  reason := unresolvedReasonNoMatch }] := by
      rw [flowLog1, if_pos hconf]
    rcases flow_log_shape env input log with h | h
    · rw [h, hlog1]
    · rw [h, hlog1]
      exact ⟨_, rfl⟩

/-- Witness for C2: two direct matches give confidence 9/10, and a
no-match query appends an unresolved-topic record to the log. -/
theorem c2_witness :
    (resolveTrainingTopic [c2doc1, c2doc2] (js "strata")).confidence = 9/10 ∧
    (([] ++ [({ topic := js "zzqq", timestamp := js "t",
                reason := unresolvedReasonNoMatch } : UnresolvedTopic)]) <+:
      (generateEnhancedLessonPlan c2env c2input []).2) :=
  ⟨(c2_topic_resolver_confidence [c2doc1, c2doc2] (js "strata")).1 (by decide),
   (c2_topic_resolver_confidence [] (js "zzqq")).2.2.2.2 c2env c2input []
     rfl rfl (by decide)⟩

/-! ## Claim C3 -/

/-- C3 (amended): in the fallback tier a document is selected exactly
when it is HR-relevant and one of its keywords, lowercased, is a
substring of the lowercased query — the keyword is contained in the
query, not the query in the keyword. -/
theorem c3_fallback_direction_amended (library : List LegalDocument)
    (q : Str) (doc : LegalDocument)
    (hdirect : searchLegalLibrary library q = []) :
    doc ∈ fallbackMatches library q ↔
      (doc ∈ library ∧ doc.onboardingRelevance = true ∧
       ∃ k ∈ doc.keywords, (lowerStr k) <:+: (lowerStr q)) := by
  simp [fallbackMatches, getHRRelevantLegalDocs, List.mem_filter,
    jsIncludes, List.any_eq_true, and_assoc]
  exact fun _ => ⟨fun h => ⟨h.2, h.1⟩, fun h => ⟨h.2, h.1⟩⟩

/-- Counterexample to C3 as stated: for the query "pdpassword" the
direct search is empty and the fallback selects the document because
its keyword "pdpa" is a substring of the query — yet the query is not a
substring of any keyword, contradicting the claimed direction. -/
theorem c3_counterexample :
    searchLegalLibrary [c3doc] (js "pdpassword") = [] ∧
    fallbackMatches [c3doc] (js "pdpassword") = [c3doc] ∧
    (resolveTrainingTopic [c3doc] (js "pdpassword")).confidence = 1/2 ∧
    (resolveTrainingTopic [c3doc] (js "pdpassword")).suggestedLaws = [c3doc] ∧
    ¬ ∃ k ∈ c3doc.keywords,
        (lowerStr (js "pdpassword")) <:+: (lowerStr k) := by
  exact ⟨by decide, by decide, rfl, by decide, by decide⟩

/-- Witness for C3 amended, at the counterexample corpus and query. -/
theorem c3_witness :
    c3doc ∈ fallbackMatches [c3doc] (js "pdpassword") ↔
      (c3doc ∈ [c3doc] ∧ c3doc.onboardingRelevance = true ∧
       ∃ k ∈ c3doc.keywords,
         (lowerStr k) <:+: (lowerStr (js "pdpassword"))) :=
  c3_fallback_direction_amended [c3doc] (js "pdpassword") c3doc (by decide)
